import Mathlib

/-!
Verification of the `waitlist-pow-solver` package (src/solver.ts, embedded in
the repository README) against its natural-language specification.

The embedding is shallow: the TypeScript functions `sha256`, `solveChallenge`,
`fetchChallenge` and `solveAndSubmit` become Lean functions.  Network calls and
their possible faults (rejections, non-2xx statuses, JSON parse failures) are
passed in explicitly as `Except`-valued behaviours; a thrown JavaScript
exception is `Except.error` carrying the message string.  Machine words are
`Nat` with explicit `% 2 ^ 32` where SHA-256 overflows.  Timers, logging and
wall-clock time are not modelled (they do not affect any returned value).
-/

namespace WaitlistPow

/-! ## SHA-256 (model of node:crypto createHash('sha256') over UTF-8 input)

The solver's `sha256` helper delegates to `node:crypto`; we model it by the
FIPS 180-4 algorithm itself, producing the lowercase hex digest string. -/

/-- Addition modulo 2^32, the word arithmetic of SHA-256. -/
def add32 (a b : Nat) : Nat := (a + b) % 4294967296

/-- Right rotation of a 32-bit word by `n` bits. -/
def rotr32 (n x : Nat) : Nat := ((x >>> n) ||| (x <<< (32 - n))) % 4294967296

/-- Logical right shift of a 32-bit word. -/
def shr32 (n x : Nat) : Nat := x >>> n

/-- Bitwise complement within 32 bits. -/
def not32 (x : Nat) : Nat := Nat.xor x 4294967295

/-- SHA-256 choice function. -/
def chFn (x y z : Nat) : Nat := Nat.xor (Nat.land x y) (Nat.land (not32 x) z)

/-- SHA-256 majority function. -/
def majFn (x y z : Nat) : Nat :=
  Nat.xor (Nat.land x y) (Nat.xor (Nat.land x z) (Nat.land y z))

/-- SHA-256 big sigma 0. -/
def bsig0 (x : Nat) : Nat := Nat.xor (rotr32 2 x) (Nat.xor (rotr32 13 x) (rotr32 22 x))

/-- SHA-256 big sigma 1. -/
def bsig1 (x : Nat) : Nat := Nat.xor (rotr32 6 x) (Nat.xor (rotr32 11 x) (rotr32 25 x))

/-- SHA-256 small sigma 0. -/
def ssig0 (x : Nat) : Nat := Nat.xor (rotr32 7 x) (Nat.xor (rotr32 18 x) (shr32 3 x))

/-- SHA-256 small sigma 1. -/
def ssig1 (x : Nat) : Nat := Nat.xor (rotr32 17 x) (Nat.xor (rotr32 19 x) (shr32 10 x))

/-- The 64 SHA-256 round constants of FIPS 180-4 (decimal). -/
def K256 : List Nat :=
  [1116352408, 1899447441, 3049323471, 3921009573, 961987163, 1508970993,
   2453635748, 2870763221, 3624381080, 310598401, 607225278, 1426881987,
   1925078388, 2162078206, 2614888103, 3248222580, 3835390401, 4022224774,
   264347078, 604807628, 770255983, 1249150122, 1555081692, 1996064986,
   2554220882, 2821834349, 2952996808, 3210313671, 3336571891, 3584528711,
   113926993, 338241895, 666307205, 773529912, 1294757372, 1396182291,
   1695183700, 1986661051, 2177026350, 2456956037, 2730485921, 2820302411,
   3259730800, 3345764771, 3516065817, 3600352804, 4094571909, 275423344,
   430227734, 506948616, 659060556, 883997877, 958139571, 1322822218,
   1537002063, 1747873779, 1955562222, 2024104815, 2227730452, 2361852424,
   2428436474, 2756734187, 3204031479, 3329325298]

/-- The eight working variables (a..h) of the SHA-256 compression, and the
running hash value between blocks. -/
structure Hash8 where
  a : Nat
  b : Nat
  c : Nat
  d : Nat
  e : Nat
  f : Nat
  g : Nat
  h : Nat

/-- The SHA-256 initial hash value of FIPS 180-4 (decimal). -/
def sha256Init : Hash8 :=
  ⟨1779033703, 3144134277, 1013904242, 2773480762,
   1359893119, 2600822924, 528734635, 1541459225⟩

/-- One round of the SHA-256 compression function with round constant `k`
and schedule word `w`. -/
def compressStep (k w : Nat) (s : Hash8) : Hash8 :=
  let t1 := add32 s.h (add32 (bsig1 s.e) (add32 (chFn s.e s.f s.g) (add32 k w)))
  let t2 := add32 (bsig0 s.a) (majFn s.a s.b s.c)
  ⟨add32 t1 t2, s.a, s.b, s.c, add32 s.d t1, s.e, s.f, s.g⟩

/-- Apply `f` to `x`, `n` times. -/
def iterateN (f : α → α) : Nat → α → α
  | 0, x => x
  | n + 1, x => iterateN f n (f x)

/-- One extension step of the message schedule; `acc` holds the schedule so
far, most recent word first. -/
def schedStep (acc : List Nat) : List Nat :=
  add32 (add32 (ssig1 (acc.getD 1 0)) (acc.getD 6 0))
    (add32 (ssig0 (acc.getD 14 0)) (acc.getD 15 0)) :: acc

/-- Extend a 16-word block to the 64-word SHA-256 message schedule. -/
def schedule (block : List Nat) : List Nat :=
  (iterateN schedStep 48 block.reverse).reverse

/-- Process one 512-bit block: run 64 compression rounds and add the result
into the running hash value. -/
def processBlock (hs : Hash8) (block : List Nat) : Hash8 :=
  let ws := schedule block
  let s := (K256.zip ws).foldl (fun st kw => compressStep kw.1 kw.2 st) hs
  ⟨add32 hs.a s.a, add32 hs.b s.b, add32 hs.c s.c, add32 hs.d s.d,
   add32 hs.e s.e, add32 hs.f s.f, add32 hs.g s.g, add32 hs.h s.h⟩

/-- Split a list into consecutive chunks of `k + 1` elements (the last chunk
may be shorter; on padded SHA-256 input every chunk is full). -/
def chunksOf (k : Nat) : List Nat → List (List Nat)
  | [] => []
  | x :: xs => (x :: xs).take (k + 1) :: chunksOf k (xs.drop k)
termination_by l => l.length
decreasing_by
  simp only [List.length_drop, List.length_cons]
  omega

/-- Big-endian byte rendering of `n` in exactly `d` bytes. -/
def beBytes : Nat → Nat → List Nat
  | 0, _ => []
  | d + 1, n => beBytes d (n / 256) ++ [n % 256]

/-- SHA-256 padding: append 0x80, zero bytes to 56 mod 64, then the bit
length as a 64-bit big-endian integer. -/
def padMsg (msg : List Nat) : List Nat :=
  msg ++ 0x80 :: List.replicate ((64 - ((msg.length + 9) % 64)) % 64) 0
    ++ beBytes 8 (8 * msg.length)

/-- Combine bytes into a big-endian word. -/
def wordOf (bytes : List Nat) : Nat := bytes.foldl (fun a b => a * 256 + b) 0

/-- UTF-8 encoding of one Unicode code point. -/
def utf8EncodeChar (c : Char) : List Nat :=
  let n := c.toNat
  if n < 0x80 then [n]
  else if n < 0x800 then [0xC0 + n / 64, 0x80 + n % 64]
  else if n < 0x10000 then [0xE0 + n / 4096, 0x80 + (n / 64) % 64, 0x80 + n % 64]
  else [0xF0 + n / 262144, 0x80 + (n / 4096) % 64, 0x80 + (n / 64) % 64, 0x80 + n % 64]

/-- UTF-8 encoding of a string, as the `update(input, 'utf8')` call performs. -/
def utf8Encode (s : String) : List Nat :=
  (s.data.map utf8EncodeChar).foldr (fun x acc => x ++ acc) []

/-- The SHA-256 hash of a byte sequence, as eight 32-bit words. -/
def sha256Words (msg : List Nat) : Hash8 :=
  ((chunksOf 63 (padMsg msg)).map (fun blk => (chunksOf 3 blk).map wordOf)).foldl
    processBlock sha256Init

/-- Lowercase hex digit for `n < 16`. -/
def hexDigit (n : Nat) : Char :=
  if n < 10 then Char.ofNat (48 + n) else Char.ofNat (87 + n)

/-- Fixed-width lowercase hex rendering: exactly `d` hex digits of `n`. -/
def toHexDigits : Nat → Nat → List Char
  | 0, _ => []
  | d + 1, n => toHexDigits d (n / 16) ++ [hexDigit (n % 16)]

/-- Function `sha256` from src/solver.ts: the lowercase hex-encoded SHA-256 digest of
the UTF-8 bytes of `input`. -/
def sha256 (input : String) : String :=
  let hw := sha256Words (utf8Encode input)
  String.mk (toHexDigits 8 hw.a ++ toHexDigits 8 hw.b ++ toHexDigits 8 hw.c ++
    toHexDigits 8 hw.d ++ toHexDigits 8 hw.e ++ toHexDigits 8 hw.f ++
    toHexDigits 8 hw.g ++ toHexDigits 8 hw.h)

/-! ## solveChallenge (src/solver.ts)

`hash.startsWith(prefix)` is JavaScript `String.prototype.startsWith`:
character-wise prefix comparison. -/

/-- Character-list prefix test, the semantics of `String.prototype.startsWith`. -/
def listPrefixed : List Char → List Char → Bool
  | [], _ => true
  | _ :: _, [] => false
  | c :: cs, x :: xs => if c = x then listPrefixed cs xs else false

/-- JavaScript `s.startsWith(p)`. -/
def startsWithJs (s p : String) : Bool := listPrefixed p.data s.data

/-- The string `'0'.repeat(difficulty)`: the required zero prefix. -/
def zeroPfx (difficulty : Nat) : String := String.mk (List.replicate difficulty '0')

/-- The number of leading '0' characters of a string (used to state the
claims' "at least d leading zero hex characters"). -/
def leadingZeroCount (s : String) : Nat :=
  (s.data.takeWhile (fun c => c = '0')).length

/-- The search loop of `solveChallenge`: try nonces `start`, `start + 1`, …
for `fuel` attempts, returning the first whose digest starts with `p`. -/
def powSearch (challenge p : String) : Nat → Nat → Option (String × String)
  | 0, _ => none
  | fuel + 1, nonce =>
    let hash := sha256 (challenge ++ toString nonce)
    if startsWithJs hash p then some (toString nonce, hash)
    else powSearch challenge p fuel (nonce + 1)

/-- Function `solveChallenge` from src/solver.ts: brute-force the least nonce in
`[0, maxIterations)` whose digest starts with `difficulty` zero hex digits;
a thrown error is `Except.error` with the thrown message. -/
def solveChallenge (challenge : String) (difficulty : Nat)
    (maxIterations : Nat := 10000000) : Except String (String × String) :=
  match powSearch challenge (zeroPfx difficulty) maxIterations 0 with
  | some r => Except.ok r
  | none => Except.error ("solveChallenge: no solution found within " ++
      toString maxIterations ++ " iterations (difficulty " ++ toString difficulty ++ ")")

/-! ## fetchChallenge (src/solver.ts)

A network response: its HTTP status, and the outcome of `res.json()` —
`Except.error` when the body fails to parse, `Except.ok` with the parsed
value otherwise.  The type parameter `β` models the unchecked TypeScript
cast `(await res.json()) as ChallengeResponse`: the code never inspects the
parsed value, so it is polymorphic in it. -/

/-- A response to the GET request: HTTP status plus the `res.json()` outcome. -/
structure HttpGetResponse (β : Type) where
  status : Nat
  jsonBody : Except String β

/-- Property `Response.ok` of the WHATWG fetch standard: status in the 2xx range. -/
def respOk (status : Nat) : Bool := 200 ≤ status && status ≤ 299

/-- Function `fetchChallenge` from src/solver.ts.  Here `fetchResult` is the behaviour of
`await fetch(url, ...)`: `Except.error` when the fetch itself rejects. -/
def fetchChallenge {β : Type} (url : String)
    (fetchResult : Except String (HttpGetResponse β)) : Except String β :=
  match fetchResult with
  | Except.error e => Except.error e
  | Except.ok res =>
    if !(respOk res.status) then
      Except.error ("GET " ++ url ++ " responded with HTTP " ++ toString res.status)
    else
      res.jsonBody

/-! ## JSON values (for stating what "the expected Challenge shape" means) -/

/-- A JSON value, as `res.json()` can yield. -/
inductive Json where
  | null : Json
  | bool : Bool → Json
  | num : Int → Json
  | str : String → Json
  | arr : List Json → Json
  | obj : List (String × Json) → Json

/-- Field lookup on a JSON object; `none` on other values or missing keys. -/
def jsonField (j : Json) (key : String) : Option Json :=
  match j with
  | Json.obj fields => fields.lookup key
  | _ => none

/-- Modelled from the spec: the expected Challenge shape
`{ pow_required: boolean, challenge: string, difficulty: integer }`. -/
def challengeShapeOk (j : Json) : Bool :=
  (match jsonField j "pow_required" with | some (Json.bool _) => true | _ => false) &&
  (match jsonField j "challenge" with | some (Json.str _) => true | _ => false) &&
  (match jsonField j "difficulty" with | some (Json.num _) => true | _ => false)

/-! ## solveAndSubmit (src/solver.ts) -/

/-- The `ChallengeResponse` interface of src/solver.ts. -/
structure ChallengeResponse where
  pow_required : Bool
  challenge : String
  difficulty : Nat

/-- The JSON body of the POST request: `{ email, nonce, solution: hash }`. -/
structure SubmitBody where
  email : String
  nonce : String
  solution : String

/-- The POST response body under the TypeScript cast
`{ success?: boolean; position?: number; error?: string }`;
`none` is an absent field. -/
structure PostResponseBody where
  success : Option Bool
  position : Option Nat
  error : Option String

/-- A response to the POST request: status, `postRes.text()` outcome, and
`postRes.json()` outcome. -/
structure HttpPostResponse where
  status : Nat
  textBody : Except String String
  jsonBody : Except String PostResponseBody

/-- The behaviour of the two network calls of one attempt: the GET response
(or rejection), and for each submitted body the POST response (or rejection). -/
structure NetBehavior where
  getChallenge : Except String (HttpGetResponse ChallengeResponse)
  postSubmit : SubmitBody → Except String HttpPostResponse

/-- The `SolveOptions` interface of src/solver.ts.  The `timeout` and
`verbose` fields drive only the abort timer and logging, which do not
affect any returned value and are not modelled further. -/
structure SolveOptions where
  url : String
  email : String
  timeout : Nat := 5000
  verbose : Bool := false

/-- The `SolveResult` interface of src/solver.ts; `none` is an absent field. -/
structure SolveResult where
  success : Bool
  position : Option Nat := none
  error : Option String := none

/-- The expression `await postRes.text().catch(() => '')`: the body text, or the empty
string when reading it fails. -/
def textOrEmpty (t : Except String String) : String :=
  match t with
  | Except.ok s => s
  | Except.error _ => ""

/-- Step 3 of `solveAndSubmit`, from the `await fetch(url, {method: 'POST', ...})`
on: interpret the POST response. -/
def submitStep (url : String) (postResult : Except String HttpPostResponse) :
    Except String SolveResult :=
  match postResult with
  | Except.error e => Except.error e
  | Except.ok postRes =>
    if !(respOk postRes.status) then
      let msg := "POST " ++ url ++ " responded with HTTP " ++
        toString postRes.status ++ ": " ++ textOrEmpty postRes.textBody
      Except.ok { success := false, error := some msg }
    else
      match postRes.jsonBody with
      | Except.error e => Except.error e
      | Except.ok result =>
        if result.success = some false then
          let msg := result.error.getD "Server returned success: false"
          Except.ok { success := false, error := some msg }
        else
          Except.ok { success := true, position := result.position }

/-- The body of `solveAndSubmit`'s `try` block: fetch the challenge, solve
it (the solver is invoked whatever `pow_required` says), POST the solution.
`Except.error` is a thrown exception reaching the `catch`. -/
def solveAndSubmitBody (options : SolveOptions) (net : NetBehavior) :
    Except String SolveResult :=
  match fetchChallenge options.url net.getChallenge with
  | Except.error e => Except.error e
  | Except.ok challengeData =>
    match solveChallenge challengeData.challenge challengeData.difficulty with
    | Except.error e => Except.error e
    | Except.ok sol =>
      submitStep options.url
        (net.postSubmit { email := options.email, nonce := sol.1, solution := sol.2 })

/-- Function `solveAndSubmit` from src/solver.ts: the `catch` block turns any thrown
error into `{ success: false, error: message }`; the `finally` block only
clears the timer and is not modelled. -/
def solveAndSubmit (options : SolveOptions) (net : NetBehavior) : SolveResult :=
  match solveAndSubmitBody options net with
  | Except.ok r => r
  | Except.error message => { success := false, error := some message }

/-! ## Helper lemmas -/

/-- String `s` contains `sub` as a substring (stated on the character lists). -/
def containsStr (s sub : String) : Prop :=
  ∃ x y, s.data = x ++ sub.data ++ y

theorem listPrefixed_replicate_iff (d : Nat) (l : List Char) :
    listPrefixed (List.replicate d '0') l = true ↔
      d ≤ (l.takeWhile (fun c => c = '0')).length := by
  induction d generalizing l with
  | zero => simp [listPrefixed]
  | succ d ih =>
    cases l with
    | nil => simp [List.replicate, listPrefixed]
    | cons c cs =>
      by_cases hc : ('0' : Char) = c
      · subst hc
        simp [List.replicate, listPrefixed, List.takeWhile_cons, ih, Nat.succ_le_succ_iff]
      · have hc' : ¬(c = '0') := fun h => hc h.symm
        simp [List.replicate, listPrefixed, List.takeWhile_cons, hc, hc']

theorem startsWithJs_zeroPfx_iff (d : Nat) (s : String) :
    startsWithJs s (zeroPfx d) = true ↔ d ≤ leadingZeroCount s := by
  have hdata : (zeroPfx d).data = List.replicate d '0' := rfl
  rw [startsWithJs, hdata, leadingZeroCount, listPrefixed_replicate_iff]

theorem takeWhile_length_le (p : Char → Bool) (l : List Char) :
    (l.takeWhile p).length ≤ l.length := by
  induction l with
  | nil => simp
  | cons c cs ih =>
    rw [List.takeWhile_cons]
    cases p c
    · simp
    · simp
      omega

theorem leadingZeroCount_le_length (s : String) :
    leadingZeroCount s ≤ s.data.length :=
  takeWhile_length_le _ _

theorem toHexDigits_length (d : Nat) : ∀ n : Nat, (toHexDigits d n).length = d := by
  induction d with
  | zero => intro n; rfl
  | succ d ih => intro n; simp [toHexDigits, ih]

theorem sha256_data_length (s : String) : (sha256 s).data.length = 64 := by
  simp [sha256, toHexDigits_length]

theorem powSearch_some (challenge p : String) (fuel : Nat) :
    ∀ (start : Nat) (ns hs : String),
      powSearch challenge p fuel start = some (ns, hs) →
      ∃ k, start ≤ k ∧ ns = toString k ∧ hs = sha256 (challenge ++ toString k) ∧
        startsWithJs hs p = true ∧
        ∀ m, start ≤ m → m < k →
          startsWithJs (sha256 (challenge ++ toString m)) p = false := by
  induction fuel with
  | zero => intro start ns hs h; simp [powSearch] at h
  | succ fuel ih =>
    intro start ns hs h
    simp only [powSearch] at h
    by_cases hcond : startsWithJs (sha256 (challenge ++ toString start)) p = true
    · rw [if_pos hcond] at h
      obtain ⟨hns, hhs⟩ : toString start = ns ∧ sha256 (challenge ++ toString start) = hs := by
        simpa using h
      refine ⟨start, Nat.le_refl _, hns.symm, hhs.symm, hhs ▸ hcond, ?_⟩
      intro m hm hm'
      omega
    · rw [if_neg hcond] at h
      obtain ⟨k, hk, hns, hhs, hsw, hall⟩ := ih (start + 1) ns hs h
      refine ⟨k, by omega, hns, hhs, hsw, ?_⟩
      intro m hm hm'
      by_cases hms : m = start
      · subst hms
        exact Bool.not_eq_true _ ▸ (by simpa using hcond)
      · exact hall m (by omega) hm'

theorem powSearch_none (challenge p : String) (fuel : Nat) :
    ∀ start : Nat,
      (∀ m, start ≤ m → m < start + fuel →
        startsWithJs (sha256 (challenge ++ toString m)) p = false) →
      powSearch challenge p fuel start = none := by
  induction fuel with
  | zero => intro start _; rfl
  | succ fuel ih =>
    intro start hall
    simp only [powSearch]
    rw [if_neg (by simp [hall start (Nat.le_refl _) (by omega)])]
    exact ih (start + 1) (fun m hm hm' => hall m (by omega) (by omega))

/-- The exhaustion error message thrown by `solveChallenge`. -/
def exhaustionMsg (maxIterations difficulty : Nat) : String :=
  "solveChallenge: no solution found within " ++ toString maxIterations ++
    " iterations (difficulty " ++ toString difficulty ++ ")"

theorem solveChallenge_eq_error_of_all_fail (token : String) (d maxIter : Nat)
    (hall : ∀ m, m < maxIter →
      startsWithJs (sha256 (token ++ toString m)) (zeroPfx d) = false) :
    solveChallenge token d maxIter = Except.error (exhaustionMsg maxIter d) := by
  unfold solveChallenge
  rw [powSearch_none token (zeroPfx d) maxIter 0
    (fun m _ hm => hall m (by omega))]
  rfl

theorem solveChallenge_ok_elim (token : String) (d maxIter : Nat) (n h : String)
    (hr : solveChallenge token d maxIter = Except.ok (n, h)) :
    ∃ k : Nat, n = toString k ∧ h = sha256 (token ++ toString k) ∧
      startsWithJs h (zeroPfx d) = true ∧
      ∀ m, m < k → startsWithJs (sha256 (token ++ toString m)) (zeroPfx d) = false := by
  unfold solveChallenge at hr
  cases hps : powSearch token (zeroPfx d) maxIter 0 with
  | none => rw [hps] at hr; simp at hr
  | some r =>
    rw [hps] at hr
    obtain ⟨rfl⟩ : r = (n, h) := by simpa using hr
    obtain ⟨k, _, hns, hhs, hsw, hmin⟩ := powSearch_some token (zeroPfx d) maxIter 0 n h hps
    exact ⟨k, hns, hhs, hsw, fun m hm => hmin m (Nat.zero_le _) hm⟩

/-! ## The claims -/

/-- C1: whenever `solveChallenge(token, d)` with `0 ≤ d ≤ 4` returns a
`(nonce, hash)` pair, the hash has at least `d` leading '0' hex characters
and equals the SHA-256 hex digest of the token concatenated with the decimal
nonce, so independently re-hashing `token + nonce` reproduces it exactly. -/
theorem solveChallenge_digest_correct (token : String) (d maxIter : Nat)
    (n h : String) (_hd : d ≤ 4)
    (hr : solveChallenge token d maxIter = Except.ok (n, h)) :
    d ≤ leadingZeroCount h ∧ h = sha256 (token ++ n) ∧ ∃ k : Nat, n = toString k := by
  obtain ⟨k, hns, hhs, hsw, -⟩ := solveChallenge_ok_elim token d maxIter n h hr
  refine ⟨(startsWithJs_zeroPfx_iff d h).mp hsw, ?_, k, hns⟩
  rw [hns, hhs]

theorem solveChallenge_digest_correct_witness :
    0 ≤ 4 ∧
      (0 ≤ leadingZeroCount (sha256 ("a" ++ "0")) ∧
        sha256 ("a" ++ "0") = sha256 ("a" ++ "0") ∧ ∃ k : Nat, "0" = toString k) :=
  ⟨by decide,
    solveChallenge_digest_correct "a" 0 10 "0" (sha256 ("a" ++ "0")) (by decide) rfl⟩

/-- C3: when no nonce in `[0, maxIterations)` produces a digest with the
required zero prefix, `solveChallenge` fails with the exhaustion error; and
it never returns a pair whose hash lacks the required prefix. -/
theorem solveChallenge_exhaustion (token : String) (d maxIter : Nat) :
    ((∀ m, m < maxIter →
        ¬(d ≤ leadingZeroCount (sha256 (token ++ toString m)))) →
      solveChallenge token d maxIter = Except.error (exhaustionMsg maxIter d)) ∧
    (∀ n h, solveChallenge token d maxIter = Except.ok (n, h) →
      d ≤ leadingZeroCount h) := by
  constructor
  · intro hall
    refine solveChallenge_eq_error_of_all_fail token d maxIter (fun m hm => ?_)
    have := hall m hm
    rw [← startsWithJs_zeroPfx_iff d (sha256 (token ++ toString m))] at this
    exact Bool.not_eq_true _ ▸ (by simpa using this)
  · intro n h hr
    obtain ⟨k, -, -, hsw, -⟩ := solveChallenge_ok_elim token d maxIter n h hr
    exact (startsWithJs_zeroPfx_iff d h).mp hsw

theorem solveChallenge_exhaustion_witness :
    solveChallenge "a" 1 0 = Except.error (exhaustionMsg 0 1) :=
  (solveChallenge_exhaustion "a" 1 0).1 (fun m hm => absurd hm (Nat.not_lt_zero m))

/-- C5: when `solveChallenge` returns nonce `n`, that nonce is the lowest
satisfying one: every smaller nonce's digest lacks the required number of
leading '0' hex characters. -/
theorem solveChallenge_lowest_nonce (token : String) (d maxIter : Nat)
    (n h : String)
    (hr : solveChallenge token d maxIter = Except.ok (n, h)) :
    ∃ k : Nat, n = toString k ∧
      ∀ m, m < k → ¬(d ≤ leadingZeroCount (sha256 (token ++ toString m))) := by
  obtain ⟨k, hns, -, -, hmin⟩ := solveChallenge_ok_elim token d maxIter n h hr
  refine ⟨k, hns, fun m hm hle => ?_⟩
  have := (startsWithJs_zeroPfx_iff d (sha256 (token ++ toString m))).mpr hle
  rw [hmin m hm] at this
  exact Bool.false_ne_true this

theorem solveChallenge_lowest_nonce_witness :
    ∃ k : Nat, "0" = toString k ∧
      ∀ m, m < k → ¬(0 ≤ leadingZeroCount (sha256 ("a" ++ toString m))) :=
  solveChallenge_lowest_nonce "a" 0 10 "0" (sha256 ("a" ++ "0")) rfl

/-- C9: a SHA-256 hex digest is exactly 64 characters, so a difficulty above
64 can never be met: `solveChallenge` always fails with the exhaustion
error, for every token and every attempt bound. -/
theorem solveChallenge_difficulty_above_64 (token : String) (d maxIter : Nat)
    (hd : 64 < d) :
    solveChallenge token d maxIter = Except.error (exhaustionMsg maxIter d) := by
  refine solveChallenge_eq_error_of_all_fail token d maxIter (fun m _ => ?_)
  by_contra hne
  have htrue : startsWithJs (sha256 (token ++ toString m)) (zeroPfx d) = true := by
    cases hb : startsWithJs (sha256 (token ++ toString m)) (zeroPfx d)
    · exact absurd hb hne
    · rfl
  have hle := (startsWithJs_zeroPfx_iff d (sha256 (token ++ toString m))).mp htrue
  have hlen := leadingZeroCount_le_length (sha256 (token ++ toString m))
  rw [sha256_data_length] at hlen
  omega

theorem solveChallenge_difficulty_above_64_witness :
    solveChallenge "a" 65 10 = Except.error (exhaustionMsg 10 65) :=
  solveChallenge_difficulty_above_64 "a" 65 10 (by decide)

/-- C4 counterexample: a response whose body is well-formed JSON that does
not match the expected Challenge shape (an empty object) is returned as a
value by `fetchChallenge`, not rejected with a parse error — the code casts
without validating. -/
theorem fetchChallenge_no_shape_validation_cex :
    challengeShapeOk (Json.obj []) = false ∧
    fetchChallenge "https://example.com"
      (Except.ok { status := 200, jsonBody := Except.ok (Json.obj []) }) =
      Except.ok (Json.obj []) :=
  ⟨rfl, rfl⟩

/-- C4 (amended): on a 2xx response, `fetchChallenge` returns the outcome of
parsing the body unchanged: a body that is not well-formed JSON propagates
the underlying parse failure, and any successfully parsed body — of the
expected shape or not — is returned as the challenge value. -/
theorem fetchChallenge_propagates_body (url : String) (status : Nat)
    (body : Except String Json) (hok : respOk status = true) :
    fetchChallenge url (Except.ok { status := status, jsonBody := body }) = body := by
  simp [fetchChallenge, hok]

theorem fetchChallenge_propagates_body_witness :
    @fetchChallenge Json "https://example.com"
      (Except.ok { status := 200, jsonBody := Except.error "Unexpected end of JSON input" }) =
      Except.error "Unexpected end of JSON input" :=
  fetchChallenge_propagates_body "https://example.com" 200
    (Except.error "Unexpected end of JSON input") rfl

theorem submitStep_ok_shape (url : String) (p : Except String HttpPostResponse)
    (r : SolveResult) (h : submitStep url p = Except.ok r) :
    (r.success = true → r.error = none) ∧
    (r.success = false → r.position = none ∧ ∃ m, r.error = some m) := by
  cases p with
  | error e => simp [submitStep] at h
  | ok postRes =>
    simp only [submitStep] at h
    split at h
    · obtain rfl : _ = r := by simpa using h
      simp
    · split at h
      · simp at h
      · split at h
        · obtain rfl : _ = r := by simpa using h
          simp
        · obtain rfl : _ = r := by simpa using h
          simp

theorem solveAndSubmitBody_ok_shape (options : SolveOptions) (net : NetBehavior)
    (r : SolveResult) (h : solveAndSubmitBody options net = Except.ok r) :
    (r.success = true → r.error = none) ∧
    (r.success = false → r.position = none ∧ ∃ m, r.error = some m) := by
  unfold solveAndSubmitBody at h
  split at h
  · simp at h
  · split at h
    · simp at h
    · exact submitStep_ok_shape _ _ _ h

/-- C2: every failure of the fetch, solve or submit step — thrown exception
or application-level rejection — is normalized by `solveAndSubmit` into
`{ success: false, error: message }` carrying the failure's message; no
fault escapes (the function is total into `SolveResult`).  In particular a
submit body `{ success: false, error: "duplicate email" }` yields exactly
`{ success: false, error: "duplicate email" }`. -/
theorem solveAndSubmit_normalizes_failures (options : SolveOptions) (net : NetBehavior) :
    ((solveAndSubmit options net).success = false →
      ∃ msg, (solveAndSubmit options net).error = some msg) ∧
    (∀ msg, solveAndSubmitBody options net = Except.error msg →
      solveAndSubmit options net = { success := false, error := some msg }) ∧
    (∀ (c : ChallengeResponse) (n h : String) (pr : HttpPostResponse) (pos : Option Nat),
      fetchChallenge options.url net.getChallenge = Except.ok c →
      solveChallenge c.challenge c.difficulty = Except.ok (n, h) →
      net.postSubmit { email := options.email, nonce := n, solution := h } = Except.ok pr →
      respOk pr.status = true →
      pr.jsonBody = Except.ok ⟨some false, pos, some "duplicate email"⟩ →
      solveAndSubmit options net = { success := false, error := some "duplicate email" }) := by
  refine ⟨?_, ?_, ?_⟩
  · cases hb : solveAndSubmitBody options net with
    | error msg =>
      unfold solveAndSubmit
      rw [hb]
      exact fun _ => ⟨msg, rfl⟩
    | ok r =>
      unfold solveAndSubmit
      rw [hb]
      exact fun hr => ((solveAndSubmitBody_ok_shape options net r hb).2 hr).2
  · intro msg hb
    unfold solveAndSubmit
    rw [hb]
  · intro c n h pr pos hf hs hp hok hj
    have hbody : solveAndSubmitBody options net =
        Except.ok { success := false, error := some "duplicate email" } := by
      simp only [solveAndSubmitBody, hf, hs, submitStep, hp, hok, Bool.not_true,
        Bool.false_eq_true, if_false, hj]
      simp
    unfold solveAndSubmit
    rw [hbody]

theorem solveAndSubmit_normalizes_failures_witness :
    solveAndSubmit { url := "https://example.com", email := "a@b.com" }
      ⟨Except.ok ⟨200, Except.ok ⟨true, "y", 0⟩⟩,
        fun _ => Except.ok ⟨200, Except.ok "",
          Except.ok ⟨some false, none, some "duplicate email"⟩⟩⟩ =
      { success := false, error := some "duplicate email" } :=
  (solveAndSubmit_normalizes_failures _ _).2.2 ⟨true, "y", 0⟩ "0" (sha256 ("y" ++ "0"))
    ⟨200, Except.ok "", Except.ok ⟨some false, none, some "duplicate email"⟩⟩ none
    rfl rfl rfl rfl rfl

/-- C6: on a non-2xx status, `fetchChallenge` fails with a message
containing the numeric status code, and the submit step of `solveAndSubmit`
produces a failure whose message contains the numeric status code and the
response body text, the text read best-effort (an unreadable body becomes
the empty string, never a further fault). -/
theorem http_error_messages_include_status :
    (∀ (β : Type) (url : String) (status : Nat) (body : Except String β),
      respOk status = false →
      fetchChallenge url (Except.ok { status := status, jsonBody := body }) =
        Except.error ("GET " ++ url ++ " responded with HTTP " ++ toString status) ∧
      containsStr ("GET " ++ url ++ " responded with HTTP " ++ toString status)
        (toString status)) ∧
    (∀ (options : SolveOptions) (net : NetBehavior) (c : ChallengeResponse)
        (n h : String) (pr : HttpPostResponse),
      fetchChallenge options.url net.getChallenge = Except.ok c →
      solveChallenge c.challenge c.difficulty = Except.ok (n, h) →
      net.postSubmit { email := options.email, nonce := n, solution := h } =
        Except.ok pr →
      respOk pr.status = false →
      solveAndSubmit options net = ⟨false, none, some ("POST " ++ options.url ++
        " responded with HTTP " ++ toString pr.status ++ ": " ++
        textOrEmpty pr.textBody)⟩ ∧
      containsStr ("POST " ++ options.url ++ " responded with HTTP " ++
        toString pr.status ++ ": " ++ textOrEmpty pr.textBody) (toString pr.status) ∧
      containsStr ("POST " ++ options.url ++ " responded with HTTP " ++
        toString pr.status ++ ": " ++ textOrEmpty pr.textBody)
        (textOrEmpty pr.textBody) ∧
      ∀ e, pr.textBody = Except.error e → textOrEmpty pr.textBody = "") := by
  constructor
  · intro β url status body hbad
    refine ⟨by simp [fetchChallenge, hbad], ?_⟩
    exact ⟨("GET " ++ url ++ " responded with HTTP ").data, [],
      by simp [String.data_append]⟩
  · intro options net c n h pr hf hs hp hbad
    have hbody : solveAndSubmitBody options net =
        Except.ok ⟨false, none, some ("POST " ++ options.url ++
          " responded with HTTP " ++ toString pr.status ++ ": " ++
          textOrEmpty pr.textBody)⟩ := by
      simp only [solveAndSubmitBody, hf, hs, submitStep, hp, hbad]
      simp
    refine ⟨by unfold solveAndSubmit; rw [hbody], ?_, ?_, ?_⟩
    · exact ⟨("POST " ++ options.url ++ " responded with HTTP ").data,
        (": " ++ textOrEmpty pr.textBody).data, by simp [String.data_append]⟩
    · exact ⟨("POST " ++ options.url ++ " responded with HTTP " ++
        toString pr.status ++ ": ").data, [], by simp [String.data_append]⟩
    · intro e he
      rw [he]
      rfl

theorem http_error_messages_include_status_witness :
    (@fetchChallenge Json "https://example.com"
        (Except.ok { status := 503, jsonBody := Except.ok Json.null }) =
      Except.error ("GET " ++ "https://example.com" ++
        " responded with HTTP " ++ toString 503)) ∧
    (solveAndSubmit { url := "https://example.com", email := "a@b.com" }
      ⟨Except.ok ⟨200, Except.ok ⟨true, "x", 0⟩⟩,
        fun _ => Except.ok ⟨400, Except.ok "Bad Request",
          Except.error "no json"⟩⟩ =
      ⟨false, none, some ("POST " ++ "https://example.com" ++
        " responded with HTTP " ++ toString 400 ++ ": " ++
        textOrEmpty (Except.ok "Bad Request"))⟩) :=
  ⟨((http_error_messages_include_status).1 Json "https://example.com" 503
      (Except.ok Json.null) rfl).1,
    ((http_error_messages_include_status).2
      { url := "https://example.com", email := "a@b.com" }
      ⟨Except.ok ⟨200, Except.ok ⟨true, "x", 0⟩⟩,
        fun _ => Except.ok ⟨400, Except.ok "Bad Request", Except.error "no json"⟩⟩
      ⟨true, "x", 0⟩ "0" (sha256 ("x" ++ "0"))
      ⟨400, Except.ok "Bad Request", Except.error "no json"⟩
      rfl rfl rfl rfl).1⟩

/-- C7: at the submit step, every parsed 2xx response body is a success
unless it explicitly carries `success: false`: a body with `success` absent
or `true` yields `{ success: true }`, with the body's position carried over
when present. -/
theorem submit_success_unless_explicit_false (options : SolveOptions)
    (net : NetBehavior) (c : ChallengeResponse) (n h : String)
    (pr : HttpPostResponse) (body : PostResponseBody)
    (hf : fetchChallenge options.url net.getChallenge = Except.ok c)
    (hs : solveChallenge c.challenge c.difficulty = Except.ok (n, h))
    (hp : net.postSubmit { email := options.email, nonce := n, solution := h } =
      Except.ok pr)
    (hok : respOk pr.status = true)
    (hj : pr.jsonBody = Except.ok body)
    (hne : body.success ≠ some false) :
    solveAndSubmit options net = { success := true, position := body.position } := by
  have hbody : solveAndSubmitBody options net =
      Except.ok { success := true, position := body.position } := by
    simp only [solveAndSubmitBody, hf, hs, submitStep, hp, hok, hj]
    simp [hne]
  unfold solveAndSubmit
  rw [hbody]

theorem submit_success_unless_explicit_false_witness :
    solveAndSubmit { url := "https://example.com", email := "a@b.com" }
      ⟨Except.ok ⟨200, Except.ok ⟨true, "integration", 0⟩⟩,
        fun _ => Except.ok ⟨200, Except.ok "", Except.ok ⟨none, some 7, none⟩⟩⟩ =
      { success := true, position := some 7 } :=
  submit_success_unless_explicit_false
    { url := "https://example.com", email := "a@b.com" }
    ⟨Except.ok ⟨200, Except.ok ⟨true, "integration", 0⟩⟩,
      fun _ => Except.ok ⟨200, Except.ok "", Except.ok ⟨none, some 7, none⟩⟩⟩
    ⟨true, "integration", 0⟩ "0" (sha256 ("integration" ++ "0"))
    ⟨200, Except.ok "", Except.ok ⟨none, some 7, none⟩⟩ ⟨none, some 7, none⟩
    rfl rfl rfl rfl rfl (fun hcontra => Option.noConfusion hcontra)

/-- C8: whatever the fetched challenge's `pow_required` flag says, the
solver is invoked on the fetched token and difficulty, and the submitted
body's nonce and solution are exactly the computed solution. -/
theorem solver_always_invoked (options : SolveOptions) (net : NetBehavior)
    (powReq : Bool) (tok : String) (diff : Nat) (n h : String)
    (hf : fetchChallenge options.url net.getChallenge =
      Except.ok ⟨powReq, tok, diff⟩)
    (hs : solveChallenge tok diff = Except.ok (n, h)) :
    solveAndSubmitBody options net =
      submitStep options.url
        (net.postSubmit { email := options.email, nonce := n, solution := h }) := by
  simp only [solveAndSubmitBody, hf, hs]

theorem solver_always_invoked_witness :
    solveAndSubmitBody { url := "https://example.com", email := "a@b.com" }
      ⟨Except.ok ⟨200, Except.ok ⟨false, "y", 0⟩⟩,
        fun _ => Except.ok ⟨200, Except.ok "", Except.ok ⟨some true, none, none⟩⟩⟩ =
      submitStep "https://example.com"
        ((fun _ => Except.ok ⟨200, Except.ok "",
            Except.ok ⟨some true, none, none⟩⟩ : SubmitBody → Except String HttpPostResponse)
          { email := "a@b.com", nonce := "0", solution := sha256 ("y" ++ "0") }) :=
  solver_always_invoked { url := "https://example.com", email := "a@b.com" }
    ⟨Except.ok ⟨200, Except.ok ⟨false, "y", 0⟩⟩,
      fun _ => Except.ok ⟨200, Except.ok "", Except.ok ⟨some true, none, none⟩⟩⟩
    false "y" 0 "0" (sha256 ("y" ++ "0")) rfl rfl

/-- C10: every `solveAndSubmit` result keeps the result-shape invariant: a
success never carries an error message, and a failure never carries a
position. -/
theorem solveResult_shape_invariant (options : SolveOptions) (net : NetBehavior) :
    ((solveAndSubmit options net).success = true →
      (solveAndSubmit options net).error = none) ∧
    ((solveAndSubmit options net).success = false →
      (solveAndSubmit options net).position = none) := by
  cases hb : solveAndSubmitBody options net with
  | error msg =>
    unfold solveAndSubmit
    rw [hb]
    exact ⟨fun hcontra => by simp at hcontra, fun _ => rfl⟩
  | ok r =>
    unfold solveAndSubmit
    rw [hb]
    have hsh := solveAndSubmitBody_ok_shape options net r hb
    exact ⟨hsh.1, fun hfail => (hsh.2 hfail).1⟩

theorem solveResult_shape_invariant_witness :
    (solveAndSubmit { url := "https://example.com", email := "a@b.com" }
      ⟨Except.ok ⟨200, Except.ok ⟨true, "z", 0⟩⟩,
        fun _ => Except.ok ⟨200, Except.ok "", Except.ok ⟨some true, some 3, none⟩⟩⟩).error =
      none :=
  (solveResult_shape_invariant { url := "https://example.com", email := "a@b.com" }
    ⟨Except.ok ⟨200, Except.ok ⟨true, "z", 0⟩⟩,
      fun _ => Except.ok ⟨200, Except.ok "", Except.ok ⟨some true, some 3, none⟩⟩⟩).1
    rfl

end WaitlistPow
